import Mathlib

/-
Verification of the FUSE channel core (`src/channel.rs` of rust-fuse).

The code is a thin wrapper over OS facilities (realpath, fuse_mount_compat25,
read, writev, close, unmount).  We shallowly embed it: byte strings are
`List Nat`, every syscall outcome is an explicit parameter (an oracle the
environment supplies), a Rust `panic!` arising from `.unwrap()` is modelled
as `Option.none` around the result, and teardown is modelled as the list of
externally visible events it emits, in order.
-/

namespace RustFuse

/-- Byte strings: the contents of Rust `&OsStr`, `CString`, `&[u8]` values. -/
abbrev Bytes := List Nat

/-- Max length for path names, from the libc module of channel.rs
(`pub const PATH_MAX: usize = 4096`). -/
def PATH_MAX : Nat := 4096

/-- Whether a byte is a UTF-8 continuation byte (0x80..0xBF). -/
def isCont (b : Nat) : Bool := 0x80 ≤ b && b ≤ 0xBF

/-- UTF-8 validity of a byte sequence, as checked by Rust `str::from_utf8` /
`OsStr::to_str` (rejecting overlong encodings, surrogates and values above
U+10FFFF). -/
def utf8Valid : Bytes → Bool
  | [] => true
  | b :: rest =>
      if b < 0x80 then utf8Valid rest
      else if b < 0xC2 then false
      else if b < 0xE0 then
        match rest with
        | b1 :: r => isCont b1 && utf8Valid r
        | [] => false
      else if b < 0xF0 then
        match rest with
        | b1 :: b2 :: r =>
            (if b = 0xE0 then decide (0xA0 ≤ b1) && decide (b1 ≤ 0xBF)
             else if b = 0xED then decide (0x80 ≤ b1) && decide (b1 ≤ 0x9F)
             else isCont b1) && isCont b2 && utf8Valid r
        | _ => false
      else if b < 0xF5 then
        match rest with
        | b1 :: b2 :: b3 :: r =>
            (if b = 0xF0 then decide (0x90 ≤ b1) && decide (b1 ≤ 0xBF)
             else if b = 0xF4 then decide (0x80 ≤ b1) && decide (b1 ≤ 0x8F)
             else isCont b1) && isCont b2 && isCont b3 && utf8Valid r
        | _ => false
      else false

/-- Rust `OsStr::to_str` (and `str::from_utf8`): succeeds exactly on valid
UTF-8, returning the same bytes. -/
def to_str (s : Bytes) : Option Bytes := if utf8Valid s then some s else none

/-- Rust `CString::new`: fails exactly when the byte string has an embedded
null byte; otherwise the bytes pass through unchanged. -/
def cstring_new (s : Bytes) : Option Bytes := if s.contains 0 then none else some s

/-- Marshaling of one string into a `CString`, the pattern
`CString::new(s.to_str().unwrap()).unwrap()` used for each option in
`with_fuse_args` and for the paths in `Channel::new` and `unmount`;
`none` models a panic. -/
def marshal_opt (s : Bytes) : Option Bytes := (to_str s).bind cstring_new

/-- Bytes of the fixed program-identifier token "rust-fuse" put at position 0
of the argument vector (`CString::new("rust-fuse").unwrap()`, which always
succeeds: the literal has no interior null). -/
def rust_fuse : Bytes := [114, 117, 115, 116, 45, 102, 117, 115, 101]

/-- Interpretation of a `usize` value cast `as i32` (wrap to 32 bits, then
read as two's complement). -/
def asI32 (n : Nat) : Int :=
  if n % 2 ^ 32 < 2 ^ 31 then ((n % 2 ^ 32 : Nat) : Int)
  else ((n % 2 ^ 32 : Nat) : Int) - 2 ^ 32

/-- The `fuse_args` struct handed to the mount-control facility: an `argc`
count (i32) and the argument vector (we record the pointed-to strings). -/
structure fuse_args where
  argc : Int
  argv : List Bytes
  allocated : Int
deriving DecidableEq

/-- Embedding of `with_fuse_args`: builds
`args = [CString::new("rust-fuse")] ++ options.map(marshal)` and hands the
callback `fuse_args { argc: args.len() as i32, argv, allocated: 0 }`.
`none` models a panic from one of the `.unwrap()` calls during marshaling.
We return the assembled `fuse_args` value (what the callback observes). -/
def with_fuse_args (options : List Bytes) : Option fuse_args :=
  (options.mapM marshal_opt).map (fun cs =>
    let args := rust_fuse :: cs
    { argc := asI32 args.length, argv := args, allocated := 0 })

/-- Outcome of the `realpath` C call: whether it returned non-null, the
contents of the caller's PATH_MAX-byte resolution buffer after the call, and
the `errno` value after a failing call. -/
structure realpath_outcome where
  ok : Bool
  buf : List Nat
  errno : Int

/-- Rust `CStr::from_ptr` reading the resolution buffer: the bytes up to (not
including) the first null byte. -/
def cstr_from_buf (buf : List Nat) : Bytes := buf.takeWhile (fun b => b != 0)

/-- Embedding of `real_path`: on a null return from `realpath` yields the
errno, otherwise reads the null-terminated string out of the buffer.  (The
final `CString::new(...).unwrap()` never panics: the bytes read out stop
before the first null, see `cstring_new_cstr_from_buf`.) -/
def real_path (o : realpath_outcome) : Except Int Bytes :=
  if o.ok then .ok (cstr_from_buf o.buf) else .error o.errno

/-- A raw communication channel: the canonical mountpoint path retained for
unmount, and the owned file descriptor. -/
structure Channel where
  mountpoint : Bytes
  fd : Int
deriving DecidableEq

/-- Environment for `Channel::new`: the `realpath` outcome for the given
path, the descriptor returned by `fuse_mount_compat25`, and the `errno`
value after a failing mount. -/
structure mount_env where
  rp : realpath_outcome
  mount_fd : Int
  mount_errno : Int

/-- Embedding of `Channel::new`: convert the caller path to a `CString`
(panicking on invalid UTF-8 or interior null), canonicalize it propagating
failure, marshal the options (panicking likewise), mount, and on a
non-negative descriptor build the Channel from the canonical path
(`PathBuf::new(str::from_utf8(mnt.as_bytes()).unwrap())`).  `none` models a
panic; `some (.error e)` a returned `Err(e)`; `some (.ok ch)` success. -/
def Channel.new (mountpoint : Bytes) (options : List Bytes) (env : mount_env) :
    Option (Except Int Channel) :=
  match marshal_opt mountpoint with
  | none => none
  | some _mnt =>
    match real_path env.rp with
    | .error e => some (.error e)
    | .ok mnt =>
      match with_fuse_args options with
      | none => none
      | some _args =>
        if env.mount_fd < 0 then some (.error env.mount_errno)
        else
          match to_str mnt with
          | none => none
          | some m => some (.ok { mountpoint := m, fd := env.mount_fd })

/-- A byte buffer as `receive` sees it: a logical length and a capacity
(the `Vec<u8>` the caller hands in). -/
structure Buffer where
  len : Nat
  cap : Nat
deriving DecidableEq

/-- Embedding of `Channel::receive`: `rc` is the return value of
`read(self.fd, buf, capacity)` and `errno` the error state after it.  On a
negative `rc` the error is returned and the buffer untouched; otherwise
`set_len(rc as usize)` fixes the logical length and `Ok(())` is returned. -/
def Channel.receive (_ch : Channel) (buffer : Buffer) (rc : Int) (errno : Int) :
    Except Int Unit × Buffer :=
  if rc < 0 then (.error errno, buffer)
  else (.ok (), { buffer with len := rc.toNat })

/-- A sender handle: a plain copy of the descriptor value. -/
structure ChannelSender where
  fd : Int
deriving DecidableEq

/-- Embedding of `Channel::sender`: `ChannelSender { fd: self.fd }`. -/
def Channel.sender (ch : Channel) : ChannelSender := { fd := ch.fd }

/-- One iovec entry of the scatter/gather list (`iov_len` only; the base
pointer references the input slice without copying). -/
structure iovec where
  iov_len : Nat
deriving DecidableEq

/-- The scatter/gather descriptor list built by `send` from the slices. -/
def iovecs_of (buffer : List Bytes) : List iovec :=
  buffer.map (fun d => { iov_len := d.length })

/-- Total number of bytes across all slices of one message. -/
def total_len (buffer : List Bytes) : Nat := (buffer.map List.length).sum

/-- Embedding of `ChannelSender::send`: builds the iovec list and issues one
`writev`; `rc` is its return value (bytes written, or negative on failure)
and `errno` the error state after it.  The code returns `Err(errno)` exactly
when `rc < 0` and `Ok(())` otherwise. -/
def ChannelSender.send (_s : ChannelSender) (buffer : List Bytes) (rc : Int) (errno : Int) :
    Except Int Unit :=
  let _iovecs := iovecs_of buffer
  if rc < 0 then .error errno else .ok ()

/-- Externally visible teardown events, in the order they are issued. -/
inductive Event where
  | close (fd : Int)
  | unmountCall (path : Bytes)
deriving DecidableEq

/-- Embedding of the free `unmount` utility: converts the stored path to a
`CString` (`.unwrap()` may panic, modelled as `none`), then issues the
platform unmount call whose integer result `_rc` is discarded — the function
returns no value and surfaces no error. -/
def unmount (mountpoint : Bytes) (_rc : Int) : Option (List Event) :=
  match marshal_opt mountpoint with
  | none => none
  | some mnt => some [Event.unmountCall mnt]

/-- Embedding of `Drop for Channel`: first `close(self.fd)`, then
`unmount(&self.mountpoint)` against the stored canonical path.  The result
is the ordered event trace; `unmount_rc` is the (discarded) result of the
underlying unmount call. -/
def Channel.drop (ch : Channel) (unmount_rc : Int) : Option (List Event) :=
  (unmount ch.mountpoint unmount_rc).map (fun evs => Event.close ch.fd :: evs)

/-- The byte strings the marshaling path rejects: invalid UTF-8 or an
embedded null byte. -/
def invalid_str (s : Bytes) : Prop := utf8Valid s = false ∨ s.contains 0 = true

/-! Helper lemmas shared by the claim theorems. -/

/-- Marshaling a valid (UTF-8, null-free) string is the identity. -/
theorem marshal_opt_some (s : Bytes) (hu : utf8Valid s = true)
    (hc : s.contains 0 = false) : marshal_opt s = some s := by
  have hc' : (0 : Nat) ∉ s := by simpa using hc
  simp [marshal_opt, to_str, cstring_new, hu, hc']

/-- Marshaling an invalid string panics. -/
theorem marshal_opt_invalid (s : Bytes) (h : invalid_str s) :
    marshal_opt s = none := by
  rcases h with hu | hc
  · simp [marshal_opt, to_str, hu]
  · have hc' : (0 : Nat) ∈ s := by simpa using hc
    cases hv : utf8Valid s <;> simp [marshal_opt, to_str, cstring_new, hv, hc']

/-- Marshaling a list of valid strings is the identity on the list. -/
theorem mapM_marshal_some (options : List Bytes)
    (h : ∀ o ∈ options, utf8Valid o = true ∧ o.contains 0 = false) :
    options.mapM marshal_opt = some options := by
  induction options with
  | nil => rfl
  | cons a l ih =>
    have ha := h a (List.mem_cons_self a l)
    have ih' := ih (fun o ho => h o (List.mem_cons_of_mem a ho))
    rw [List.mapM_cons, marshal_opt_some a ha.1 ha.2, ih']
    rfl

/-- Marshaling a list with an invalid member panics. -/
theorem mapM_marshal_none (options : List Bytes)
    (h : ∃ o ∈ options, invalid_str o) :
    options.mapM marshal_opt = none := by
  induction options with
  | nil => simp at h
  | cons a l ih =>
    rw [List.mapM_cons]
    rcases h with ⟨o, ho, hinv⟩
    rcases List.mem_cons.mp ho with rfl | ho'
    · rw [marshal_opt_invalid o hinv]; rfl
    · have hl := ih ⟨o, ho', hinv⟩
      rw [hl]
      cases marshal_opt a <;> rfl

/-- Casting a `usize` below 2^31 to `i32` is lossless. -/
theorem asI32_coe (n : Nat) (h : n < 2 ^ 31) : asI32 n = (n : Int) := by
  have h32 : n < 2 ^ 32 := lt_trans h (by norm_num)
  unfold asI32
  rw [Nat.mod_eq_of_lt h32, if_pos h]

/-- Reading a null-terminated string out of a buffer that contains a null
stops strictly before the buffer's end. -/
theorem cstr_from_buf_length_lt (l : List Nat) (h : (0 : Nat) ∈ l) :
    (cstr_from_buf l).length < l.length := by
  induction l with
  | nil => simp at h
  | cons a t ih =>
    by_cases ha : a = 0
    · subst ha; simp [cstr_from_buf, List.takeWhile_cons]
    · rcases List.mem_cons.mp h with h0 | ht
      · exact absurd h0.symm ha
      · have hlt := ih ht
        simp only [cstr_from_buf, List.takeWhile_cons] at *
        have hb : (a != 0) = true := by simpa using ha
        rw [hb]
        simpa using Nat.succ_lt_succ hlt

/-! Claim theorems. -/

/-- C1: for every sequence of N option strings (each valid UTF-8 without an
embedded null, and N+1 within i32 range), `with_fuse_args` assembles an
argument list of length N+1 whose element 0 is the fixed token "rust-fuse"
and whose elements 1..N are the inputs in order, with argc = N+1. -/
theorem C1_with_fuse_args_marshals (options : List Bytes)
    (hvalid : ∀ o ∈ options, utf8Valid o = true ∧ o.contains 0 = false)
    (hsize : options.length + 1 < 2 ^ 31) :
    with_fuse_args options =
      some { argc := (options.length : Int) + 1,
             argv := rust_fuse :: options,
             allocated := 0 } ∧
    (rust_fuse :: options).length = options.length + 1 := by
  constructor
  · unfold with_fuse_args
    rw [mapM_marshal_some options hvalid]
    simp [asI32_coe _ (by simpa using hsize)]
  · simp

/-- Witness for C1 at the concrete inputs "foo" and "bar". -/
theorem C1_witness :
    with_fuse_args [[102, 111, 111], [98, 97, 114]] =
      some { argc := (([[102, 111, 111], [98, 97, 114]] : List Bytes).length : Int) + 1,
             argv := rust_fuse :: [[102, 111, 111], [98, 97, 114]],
             allocated := 0 } ∧
    (rust_fuse :: [[102, 111, 111], [98, 97, 114]]).length =
      ([[102, 111, 111], [98, 97, 114]] : List Bytes).length + 1 :=
  C1_with_fuse_args_marshals [[102, 111, 111], [98, 97, 114]] (by decide) (by decide)

/-- C8: `sender` returns a `ChannelSender` carrying a copy of the Channel's
current descriptor; the Channel is taken by shared reference (the function
is pure on it), and every call yields the same descriptor value. -/
theorem C8_sender_copies_fd (ch : Channel) :
    Channel.sender ch = { fd := ch.fd } ∧ (Channel.sender ch).fd = ch.fd :=
  ⟨rfl, rfl⟩

/-- C3: a read result K with 0 ≤ K ≤ capacity makes `receive` return `Ok(())`
and set the buffer's logical length to exactly K (partial reads included);
a negative read result makes it return `Err(errno)`. -/
theorem C3_receive_sets_len (ch : Channel) (buffer : Buffer) (errno : Int) :
    (∀ K : Nat, K ≤ buffer.cap →
        Channel.receive ch buffer (K : Int) errno =
          (.ok (), { buffer with len := K })) ∧
    (∀ rc : Int, rc < 0 →
        Channel.receive ch buffer rc errno = (.error errno, buffer)) := by
  constructor
  · intro K _hK
    simp [Channel.receive]
  · intro rc hrc
    simp [Channel.receive, hrc]

/-- Witness for C3: channel fd 3, buffer of capacity 8, read result 5. -/
theorem C3_witness :
    Channel.receive ⟨[47], 3⟩ ⟨0, 8⟩ ((5 : Nat) : Int) 0 =
      (.ok (), { (⟨0, 8⟩ : Buffer) with len := 5 }) ∧
    Channel.receive ⟨[47], 3⟩ ⟨0, 8⟩ (-1) 0 = (.error 0, ⟨0, 8⟩) :=
  ⟨(C3_receive_sets_len ⟨[47], 3⟩ ⟨0, 8⟩ 0).1 5 (by decide),
   (C3_receive_sets_len ⟨[47], 3⟩ ⟨0, 8⟩ 0).2 (-1) (by decide)⟩

/-- C9: when `receive` fails (negative read result), the buffer is returned
unchanged — its logical length is only mutated on the success path. -/
theorem C9_receive_error_preserves_buffer (ch : Channel) (buffer : Buffer)
    (rc errno : Int) (h : rc < 0) :
    (Channel.receive ch buffer rc errno).2 = buffer := by
  simp [Channel.receive, h]

/-- Witness for C9 at a concrete failing read. -/
theorem C9_witness :
    (Channel.receive ⟨[47], 3⟩ ⟨2, 8⟩ (-1) 9).2 = ⟨2, 8⟩ :=
  C9_receive_error_preserves_buffer ⟨[47], 3⟩ ⟨2, 8⟩ (-1) 9 (by decide)

/-- C4: under the device guarantee that a vectored write is atomic (its
result is either negative or the total byte count of all slices), `send`
returning `Ok(())` implies all bytes of all slices were delivered; it never
reports success on a proper-prefix delivery. -/
theorem C4_send_no_partial_success (s : ChannelSender) (buffer : List Bytes)
    (rc errno : Int)
    (hatomic : rc < 0 ∨ rc = (total_len buffer : Int))
    (hok : ChannelSender.send s buffer rc errno = .ok ()) :
    rc = (total_len buffer : Int) ∧
    ¬(0 ≤ rc ∧ rc < (total_len buffer : Int)) := by
  rcases hatomic with hneg | htot
  · simp [ChannelSender.send, hneg] at hok
  · exact ⟨htot, by omega⟩

/-- Witness for C4: two slices of 2 and 1 bytes, write result 3. -/
theorem C4_witness :
    (3 : Int) = (total_len [[1, 2], [3]] : Int) ∧
    ¬((0 : Int) ≤ 3 ∧ (3 : Int) < (total_len [[1, 2], [3]] : Int)) :=
  C4_send_no_partial_success ⟨4⟩ [[1, 2], [3]] 3 0 (Or.inr (by decide)) rfl

/-- C2: `Channel::new` propagates a canonicalization failure as-is (the
mount outcome is irrelevant there), returns the captured errno when the
mount facility yields a negative descriptor, and on a non-negative
descriptor returns a Channel storing that descriptor and the canonical
(resolved) path read out of the realpath buffer — not the caller path. -/
theorem C2_channel_new_cases (mountpoint : Bytes) (options : List Bytes)
    (env : mount_env)
    (hpath : utf8Valid mountpoint = true ∧ mountpoint.contains 0 = false)
    (hopts : ∀ o ∈ options, utf8Valid o = true ∧ o.contains 0 = false)
    (hbuf : utf8Valid (cstr_from_buf env.rp.buf) = true) :
    (env.rp.ok = false →
        Channel.new mountpoint options env = some (.error env.rp.errno)) ∧
    (env.rp.ok = true → env.mount_fd < 0 →
        Channel.new mountpoint options env = some (.error env.mount_errno)) ∧
    (env.rp.ok = true → 0 ≤ env.mount_fd →
        Channel.new mountpoint options env =
          some (.ok { mountpoint := cstr_from_buf env.rp.buf,
                      fd := env.mount_fd })) := by
  have hm := marshal_opt_some mountpoint hpath.1 hpath.2
  have hargs : with_fuse_args options =
      some { argc := asI32 (rust_fuse :: options).length,
             argv := rust_fuse :: options, allocated := 0 } := by
    unfold with_fuse_args
    rw [mapM_marshal_some options hopts]
    rfl
  refine ⟨?_, ?_, ?_⟩
  · intro hko
    unfold Channel.new
    rw [hm]
    simp [real_path, hko]
  · intro hko hfd
    unfold Channel.new
    rw [hm, hargs]
    simp [real_path, hko, hfd]
  · intro hko hfd
    unfold Channel.new
    rw [hm, hargs]
    simp [real_path, hko, not_lt.mpr hfd, to_str, hbuf]

/-- A concrete mount environment: realpath succeeds writing "/x\0",
the mount facility returns descriptor 5. -/
def demo_env : mount_env := ⟨⟨true, [47, 120, 0], 0⟩, 5, 0⟩

/-- A concrete caller-supplied mount path "/x". -/
def demo_path : Bytes := [47, 120]

/-- Witness for C2: the success case at a concrete environment. -/
theorem C2_witness :
    Channel.new demo_path [] demo_env =
      some (.ok { mountpoint := [47, 120], fd := 5 }) :=
  (C2_channel_new_cases demo_path [] demo_env (by decide) (by decide)
    (by decide)).2.2 rfl (by decide)

/-- C5: teardown emits exactly the close of the owned descriptor followed by
the unmount against the stored canonical path (never re-resolved), in that
fixed order, for every outcome of the underlying unmount call. -/
theorem C5_drop_close_before_unmount (ch : Channel) (unmount_rc : Int)
    (h : utf8Valid ch.mountpoint = true ∧ ch.mountpoint.contains 0 = false) :
    Channel.drop ch unmount_rc =
      some [Event.close ch.fd, Event.unmountCall ch.mountpoint] := by
  unfold Channel.drop unmount
  rw [marshal_opt_some ch.mountpoint h.1 h.2]
  rfl

/-- Witness for C5: a concrete channel torn down while the unmount call
fails (result -1): the close event still comes first. -/
theorem C5_witness :
    Channel.drop ⟨[47, 109], 3⟩ (-1) =
      some [Event.close 3, Event.unmountCall [47, 109]] :=
  C5_drop_close_before_unmount ⟨[47, 109], 3⟩ (-1) (by decide)

/-- C6: teardown failures are never propagated — the free `unmount` utility
and `Drop` produce the same (error-free) outcome for every result of the
underlying unmount call — while every non-teardown failure in the core
(receive, send, construction) is returned to the caller as an error. -/
theorem C6_teardown_errors_swallowed (p : Bytes) (ch : Channel) :
    (∀ rc rc' : Int, unmount p rc = unmount p rc') ∧
    (∀ rc rc' : Int, Channel.drop ch rc = Channel.drop ch rc') ∧
    (∀ (buffer : Buffer) (rc errno : Int), rc < 0 →
        (Channel.receive ch buffer rc errno).1 = .error errno) ∧
    (∀ (s : ChannelSender) (buffer : List Bytes) (rc errno : Int), rc < 0 →
        ChannelSender.send s buffer rc errno = .error errno) ∧
    (∀ (options : List Bytes) (env : mount_env), env.rp.ok = false →
        marshal_opt p = some p →
        Channel.new p options env = some (.error env.rp.errno)) := by
  refine ⟨fun _ _ => rfl, fun _ _ => rfl, ?_, ?_, ?_⟩
  · intro buffer rc errno h
    simp [Channel.receive, h]
  · intro s buffer rc errno h
    simp [ChannelSender.send, h]
  · intro options env hko hm
    unfold Channel.new
    rw [hm]
    simp [real_path, hko]

/-- Witness for C6 at concrete teardown outcomes and failing syscalls. -/
theorem C6_witness :
    unmount [47] 2 = unmount [47] (-1) ∧
    Channel.drop ⟨[47], 3⟩ 2 = Channel.drop ⟨[47], 3⟩ (-1) ∧
    (Channel.receive ⟨[47], 3⟩ ⟨0, 4⟩ (-1) 7).1 = .error 7 ∧
    ChannelSender.send ⟨3⟩ [[1]] (-1) 8 = .error 8 ∧
    Channel.new [47] [] ⟨⟨false, [], 6⟩, 0, 0⟩ = some (.error 6) :=
  ⟨(C6_teardown_errors_swallowed [47] ⟨[47], 3⟩).1 2 (-1),
   (C6_teardown_errors_swallowed [47] ⟨[47], 3⟩).2.1 2 (-1),
   (C6_teardown_errors_swallowed [47] ⟨[47], 3⟩).2.2.1 ⟨0, 4⟩ (-1) 7 (by decide),
   (C6_teardown_errors_swallowed [47] ⟨[47], 3⟩).2.2.2.1 ⟨3⟩ [[1]] (-1) 8 (by decide),
   (C6_teardown_errors_swallowed [47] ⟨[47], 3⟩).2.2.2.2 [] ⟨⟨false, [], 6⟩, 0, 0⟩
     rfl (by decide)⟩

/-- C7: a mountpoint or option string that is not valid UTF-8 or has an
embedded null byte makes construction fail loudly: `Channel::new` never
returns a normally-constructed Channel (it panics during marshaling, or has
already failed canonicalization before the options are touched). -/
theorem C7_invalid_string_blocks_construction (mountpoint : Bytes)
    (options : List Bytes) (env : mount_env)
    (h : invalid_str mountpoint ∨ ∃ o ∈ options, invalid_str o) :
    ∀ ch : Channel, Channel.new mountpoint options env ≠ some (.ok ch) := by
  intro ch
  rcases h with hp | ho
  · unfold Channel.new
    rw [marshal_opt_invalid mountpoint hp]
    simp
  · have hargs : with_fuse_args options = none := by
      unfold with_fuse_args
      rw [mapM_marshal_none options ho]
      rfl
    unfold Channel.new
    cases hm : marshal_opt mountpoint with
    | none => simp
    | some mnt =>
      cases hr : real_path env.rp with
      | error e => simp
      | ok m =>
        rw [hargs]
        simp

/-- Witness for C7: the byte 0xFF is not valid UTF-8, so construction with
that mountpoint cannot produce a Channel. -/
theorem C7_witness :
    Channel.new [255] [] ⟨⟨true, [47, 0], 0⟩, 5, 0⟩ ≠
      some (.ok ⟨[47], 5⟩) :=
  C7_invalid_string_blocks_construction [255] [] ⟨⟨true, [47, 0], 0⟩, 5, 0⟩
    (Or.inl (Or.inl (by decide))) ⟨[47], 5⟩

/-- C10: canonicalization works in a fixed PATH_MAX = 4096 byte buffer, so
every canonical path `real_path` can successfully return (read out of a
buffer that the successful call null-terminated) is strictly shorter than
4096 bytes. -/
theorem C10_real_path_shorter_than_PATH_MAX (o : realpath_outcome)
    (p : Bytes) (hlen : o.buf.length = PATH_MAX)
    (hnul : (0 : Nat) ∈ o.buf) (hok : real_path o = .ok p) :
    p.length < PATH_MAX := by
  unfold real_path at hok
  by_cases hko : o.ok
  · rw [if_pos hko] at hok
    simp only [Except.ok.injEq] at hok
    subst hok
    rw [← hlen]
    exact cstr_from_buf_length_lt o.buf hnul
  · rw [if_neg hko] at hok
    exact Except.noConfusion hok

/-- Witness for C10: a successful realpath call whose buffer is all zeros
yields the empty canonical path, shorter than PATH_MAX. -/
theorem C10_witness : ([] : Bytes).length < PATH_MAX :=
  C10_real_path_shorter_than_PATH_MAX ⟨true, List.replicate PATH_MAX 0, 0⟩ []
    (by simp) (List.mem_replicate.mpr ⟨by decide, rfl⟩) rfl

end RustFuse
